import Mathlib

/-!
Verification of the BFit fitting core: a shallow embedding of the
KL-divergence MBIS update loop (`src/fitting/fit/normalized_mbis.py`)
and of the Slater atomic-density evaluator (`src/bfit/density.py`),
with theorems settling the specification claims about them.

Vectors are embedded as `List ℝ`, machine floats as exact reals, and
numpy's `trapz` as the trapezoidal sum over consecutive point pairs.
Assertion failures are embedded as `Option` results (`none` = the
assertion raised).
-/

namespace BFit

open scoped Classical

noncomputable section

/-- Embedding of `np.trapz(y, x)`: the trapezoidal sum
`Σ (x_{k+1} - x_k) * (y_k + y_{k+1}) / 2` over consecutive pairs; fewer
than two samples give `0`, exactly as numpy returns `0.0` there. -/
def trapz : List ℝ → List ℝ → ℝ
  | y0 :: y1 :: ys, x0 :: x1 :: xs =>
      (x1 - x0) * (y0 + y1) / 2 + trapz (y1 :: ys) (x1 :: xs)
  | _, _ => 0

/-- Embedding of `get_normalization_constant` from `normalized_mbis.py`:
`4 * exponent**(3/2) / np.pi**(1/2)`. -/
def get_normalization_constant (exponent : ℝ) : ℝ :=
  4 * exponent ^ ((3 : ℝ) / 2) / Real.sqrt Real.pi

/-- Embedding of `normalized_gaussian_model`: at each grid point `r` the
model density is `Σ_i exp(-ζ_i r²) * (N(ζ_i) * c_i)`. -/
def normalized_gaussian_model (coefficients exponents grid : List ℝ) : List ℝ :=
  grid.map (fun r =>
    (List.zipWith
      (fun c e => Real.exp (-e * r ^ 2) * (get_normalization_constant e * c))
      coefficients exponents).sum)

/-- Embedding of the in-place mask
`masked[masked <= masked_value] = masked_value`: every entry at or below
the threshold is replaced by the threshold itself. -/
def maskClamp (masked_value : ℝ) (l : List ℝ) : List ℝ :=
  l.map (fun g => if g ≤ masked_value then masked_value else g)

/-- Embedding of `get_gaussian_model` (unnormalized variant, kept for
completeness of the module's surface). -/
def get_gaussian_model (coefficients exponents grid : List ℝ) : List ℝ :=
  grid.map (fun r =>
    (List.zipWith (fun c e => Real.exp (-e * r ^ 2) * c) coefficients exponents).sum)

/-- Embedding of `integrate_error`:
`np.trapz(grid² * |model - electron_density|, x=grid)`. -/
def integrate_error (coefficients exponents electron_density grid : List ℝ) : ℝ :=
  trapz
    (List.zipWith (fun r md => r ^ 2 * |md|) grid
      (List.zipWith (fun m d => m - d)
        (normalized_gaussian_model coefficients exponents grid) electron_density))
    grid

/-- Embedding of `integrate_normalized_model`:
`np.trapz(grid² * model, x=grid)`.  The `electron_density` argument is
unused, exactly as in the source. -/
def integrate_normalized_model (coefficients exponents electron_density grid : List ℝ) : ℝ :=
  trapz
    (List.zipWith (fun r m => r ^ 2 * m) grid
      (normalized_gaussian_model coefficients exponents grid))
    grid

/-- Embedding of `KL_objective_function`.  The model density is used raw:
the masking statement `masked_gaussian_density[... <= 1e-6] = 1e-12` is
commented out in the source, so the ratio divides by the unclamped model
density and the result is `trapz(true * log(true / model), grid)`. -/
def KL_objective_function (coefficients exponents true_density grid : List ℝ) : ℝ :=
  trapz
    (List.zipWith (fun d rt => d * Real.log rt) true_density
      (List.zipWith (fun d m => d / m) true_density
        (normalized_gaussian_model coefficients exponents grid)))
    grid

/-- Mirror of the specification sentence for the KL objective (claim C7):
model values at or below the mask threshold are replaced by the clamped
floor value before the ratio is formed.  This is the clamp that
`update_coefficients` performs, transplanted into the objective as the
claim asserts; the source objective itself does not clamp. -/
def KL_objective_claimed (coefficients exponents true_density grid : List ℝ)
    (masked_value : ℝ) : ℝ :=
  trapz
    (List.zipWith (fun d rt => d * Real.log rt) true_density
      (List.zipWith (fun d m => d / m) true_density
        (maskClamp masked_value (normalized_gaussian_model coefficients exponents grid))))
    grid

/-- Embedding of `update_coefficients`.  The three leading `assert`
statements become the guard (a failed assertion raises, embedded as
`none`).  On success, for each primitive `i` the new coefficient is
`c_i * N(ζ_i) * trapz(ratio * exp(-ζ_i r²) * r², grid)` with
`ratio = electron_density / maskClamp(model)`. -/
def update_coefficients (initial_coeffs constant_exponents electron_density grid : List ℝ)
    (masked_value : ℝ) : Option (List ℝ) :=
  if (∀ c ∈ initial_coeffs, 0 < c) ∧
      initial_coeffs.length = constant_exponents.length ∧
      electron_density.length = grid.length then
    some ((List.range initial_coeffs.length).map (fun i =>
      initial_coeffs.getD i 0 * get_normalization_constant (constant_exponents.getD i 0) *
        trapz
          (List.zipWith
            (fun rt r => rt * Real.exp (-(constant_exponents.getD i 0) * r ^ 2) * r ^ 2)
            (List.zipWith (fun d m => d / m) electron_density
              (maskClamp masked_value
                (normalized_gaussian_model initial_coeffs constant_exponents grid)))
            grid)
          grid))
  else none

/-- State of the `fixed_iteration_MBIS_method` loop.  `error_array` in the
source is a list of six lists of which only slots 0, 1, 2 are ever
appended to; they are carried here as six explicit fields.  `exponents`
is the loop-local variable of the same name (its reassignment through
`update_exponents` is commented out in the source). -/
structure MBISState where
  old_coefficients : List ℝ
  new_coefficients : List ℝ
  exponents : List ℝ
  counter : ℕ
  err0 : List ℝ
  err1 : List ℝ
  err2 : List ℝ
  err3 : List ℝ
  err4 : List ℝ
  err5 : List ℝ

/-- One iteration of the `for x in range(0, num_of_iterations)` body:
shuffle `temp/new/old` coefficients, run `update_coefficients` on the
old coefficients, record `inte_error` into slot 0, `integration_model`
into slot 1 and `obj_func_error` into slot 2, and bump `counter`. -/
def MBIS_iter (electron_density grid : List ℝ) (masked_value : ℝ)
    (st : MBISState) : Option MBISState :=
  match update_coefficients st.old_coefficients st.exponents electron_density grid
      masked_value with
  | none => none
  | some nc =>
      some ⟨st.new_coefficients, nc, st.exponents, st.counter + 1,
        st.err0 ++ [integrate_error nc st.exponents electron_density grid],
        st.err1 ++ [integrate_normalized_model nc st.exponents electron_density grid],
        st.err2 ++ [KL_objective_function nc st.exponents electron_density grid],
        st.err3, st.err4, st.err5⟩

/-- The loop of `fixed_iteration_MBIS_method`: run the body a fixed number
of times, aborting (as Python does on a raised assertion) if an
iteration's `update_coefficients` fails. -/
def MBIS_loop (electron_density grid : List ℝ) (masked_value : ℝ) :
    ℕ → MBISState → Option MBISState
  | 0, st => some st
  | Nat.succ k, st =>
      match MBIS_iter electron_density grid masked_value st with
      | none => none
      | some st2 => MBIS_loop electron_density grid masked_value k st2

/-- Embedding of `fixed_iteration_MBIS_method` up to its final `return`
statement: the loop state after `num_of_iterations` iterations, started
from `old = new = coefficients`, `counter = 0` and six empty
diagnostic slots.  (The source's `return((coeffs, exps), error_array)`
references module-level globals `coeffs`/`exps`, not the loop's final
vectors; see claim C9.) -/
def fixed_iteration_MBIS_method (coefficients exponents electron_density grid : List ℝ)
    (num_of_iterations : ℕ) (masked_value : ℝ) : Option MBISState :=
  MBIS_loop electron_density grid masked_value num_of_iterations
    ⟨coefficients, coefficients, exponents, 0, [], [], [], [], [], []⟩

/-- One Slater-type orbital value
`(2ζ)^n * sqrt(2ζ / (2n)!) * r^(n-1) * exp(-ζ r)`, the entry computed by
`SlaterAtoms.slater_orbital` (`norm * pref * exp`). -/
def slaterEntry (ζ : ℝ) (n : ℕ) (r : ℝ) : ℝ :=
  (2 * ζ) ^ n * Real.sqrt (2 * ζ / (Nat.factorial (2 * n) : ℝ)) *
    r ^ (n - 1) * Real.exp (-ζ * r)

/-- Embedding of `SlaterAtoms.slater_orbital`: the `N × M` matrix (rows
over `points`, columns over the zipped exponent/quantum-number pairs). -/
def slater_orbital (exponent : List ℝ) (number : List ℕ) (points : List ℝ) :
    List (List ℝ) :=
  points.map (fun r => (exponent.zip number).map (fun en => slaterEntry en.1 en.2 r))

/-- One entry of `SlaterAtoms.derivative_slater_type_orbital`: the prefactor
`(n-1)/r - ζ` is forced to `0` on rows with `|r| < 1e-10` before it
multiplies the Slater value. -/
def derivEntry (ζ : ℝ) (n : ℕ) (r : ℝ) : ℝ :=
  (if |r| < 1e-10 then 0 else ((n : ℝ) - 1) / r - ζ) * slaterEntry ζ n r

/-- Embedding of `SlaterAtoms.derivative_slater_type_orbital`. -/
def derivative_slater_type_orbital (exponent : List ℝ) (number : List ℕ)
    (points : List ℝ) : List (List ℝ) :=
  points.map (fun r => (exponent.zip number).map (fun en => derivEntry en.1 en.2 r))

/-- The per-atom data `SlaterAtoms` reads from a parsed `.slater` file.
Dictionaries keyed by orbital-type letter ("S", "P", ...) or by orbital
name ("1S", ...) are embedded as functions from `String`. -/
structure SlaterAtomsData where
  orbitals : List String
  orbitals_exp : String → List ℝ
  basis_numbers : String → List ℕ
  orbitals_coeff : String → List ℝ
  orbitals_occupation : List ℝ
  orbitals_energy : List ℝ

/-- Embedding of `SlaterAtoms.phi_matrix`: column `index` is
`dot(slater(exps[type], numbers[type], points), coeffs[orbital])`, where
`type` is `orbital[1]` (the letter after the principal number); with
`deriv = true` the derivative Slater values are used instead. -/
def phi_matrix (a : SlaterAtomsData) (points : List ℝ) (deriv : Bool) :
    List (List ℝ) :=
  points.map (fun r => a.orbitals.map (fun orbital =>
    (List.zipWith (fun s c => s * c)
      (((a.orbitals_exp (orbital.drop 1)).zip (a.basis_numbers (orbital.drop 1))).map
        (fun en => if deriv then derivEntry en.1 en.2 r else slaterEntry en.1 en.2 r))
      (a.orbitals_coeff orbital)).sum))

/-- Embedding of `SlaterAtoms.atomic_density`: an unrecognized mode raises
(`none`); `valence` reweights occupation by `exp(-(e_i - e_ref)²)` and
`core` by `1 - exp(-(e_i - e_ref)²)`, where `e_ref` is
`orbitals_energy[len(orbitals_occupation) - 1]`, the energy stored at the
last occupation index; the density is
`dot(phi², occs) / (4π)` pointwise. -/
def atomic_density (a : SlaterAtomsData) (points : List ℝ) (mode : String) :
    Option (List ℝ) :=
  if mode = "total" ∨ mode = "valence" ∨ mode = "core" then
    let orb_homo := a.orbitals_energy.getD (a.orbitals_occupation.length - 1) 0
    let orb_occs :=
      if mode = "valence" then
        List.zipWith (fun occ en => occ * Real.exp (-(en - orb_homo) ^ 2))
          a.orbitals_occupation a.orbitals_energy
      else if mode = "core" then
        List.zipWith (fun occ en => occ * (1 - Real.exp (-(en - orb_homo) ^ 2)))
          a.orbitals_occupation a.orbitals_energy
      else a.orbitals_occupation
    some ((phi_matrix a points false).map (fun row =>
      (List.zipWith (fun p occ => p ^ 2 * occ) row orb_occs).sum / (4 * Real.pi)))
  else none

/-- Modelled from the spec: the HOMO reference energy as the claim words
it — "the energy of the highest-occupied orbital among the atom's
orbitals", i.e. the maximum energy over orbitals with nonzero
occupation (`0` for the degenerate empty case). -/
def homo_energy_spec (a : SlaterAtomsData) : ℝ :=
  (((a.orbitals_occupation.zip a.orbitals_energy).filter (fun p => p.1 ≠ 0)).map
    Prod.snd).foldr max 0

/-- Mirror of claim C6's wording for `atomic_density`: identical to the
source evaluation except that the valence/core reference energy is
`homo_energy_spec` (the highest occupied orbital's energy) instead of the
energy stored at the last index. -/
def atomic_density_spec (a : SlaterAtomsData) (points : List ℝ) (mode : String) :
    Option (List ℝ) :=
  if mode = "total" ∨ mode = "valence" ∨ mode = "core" then
    let orb_homo := homo_energy_spec a
    let orb_occs :=
      if mode = "valence" then
        List.zipWith (fun occ en => occ * Real.exp (-(en - orb_homo) ^ 2))
          a.orbitals_occupation a.orbitals_energy
      else if mode = "core" then
        List.zipWith (fun occ en => occ * (1 - Real.exp (-(en - orb_homo) ^ 2)))
          a.orbitals_occupation a.orbitals_energy
      else a.orbitals_occupation
    some ((phi_matrix a points false).map (fun row =>
      (List.zipWith (fun p occ => p ^ 2 * occ) row orb_occs).sum / (4 * Real.pi)))
  else none

/-- A minimal one-orbital atom (a single 1S Slater primitive with
exponent 1, coefficient 1, occupation 2, energy 0), used to instantiate
hypotheses at a concrete input. -/
def atomOne : SlaterAtomsData :=
  ⟨["1S"], fun _ => [1], fun _ => [1], fun _ => [1], [2], [0]⟩

/-- A two-orbital atom whose last-listed orbital is not its
highest-energy occupied orbital: energies `[0, -1]`, both orbitals
occupied (occupation 2 each).  Orbital "1S" is the single basis function
`ζ = 1/2, n = 1` with coefficient 1; orbital "2S" carries coefficient 0. -/
def atomTwo : SlaterAtomsData :=
  ⟨["1S", "2S"], fun _ => [1 / 2], fun _ => [1],
    fun orbital => if orbital = "1S" then [1] else [0], [2, 2], [0, -1]⟩

/-- The loop state produced by one MBIS iteration of the example call
(`c = ζ = 1`, grid `[0]`): the updated coefficient vector is `[0]` and
all three diagnostics evaluate to `0` on a one-point grid. -/
def mbisStateEx : MBISState := ⟨[1], [0], [1], 1, [0], [0], [0], [], [], []⟩

/-! Helper lemmas about the embedded numerics. -/

/-- With a single sample point, the trapezoidal sum is `0` (as numpy's). -/
lemma trapz_single (y : List ℝ) (x : ℝ) : trapz y [x] = 0 := by
  cases y with
  | nil => rfl
  | cons a t =>
    cases t with
    | nil => rfl
    | cons b t2 => rfl

/-- The trapezoidal sum of two samples is a single trapezoid. -/
lemma trapz_pair (y0 y1 x0 x1 : ℝ) :
    trapz [y0, y1] [x0, x1] = (x1 - x0) * (y0 + y1) / 2 := by
  show (x1 - x0) * (y0 + y1) / 2 + trapz [y1] [x1] = _
  rw [trapz_single]
  ring

/-- The trapezoidal sum of pointwise non-negative samples over a
monotonically non-decreasing abscissa list is non-negative. -/
lemma trapz_nonneg (y : List ℝ) (x : List ℝ) (hy : ∀ v ∈ y, 0 ≤ v)
    (hx : List.Chain' (fun a b => a ≤ b) x) : 0 ≤ trapz y x := by
  induction y generalizing x with
  | nil =>
    cases x with
    | nil => exact le_refl 0
    | cons x0 xt =>
      cases xt with
      | nil => exact le_refl 0
      | cons x1 xs => exact le_refl 0
  | cons y0 t ih =>
    cases t with
    | nil =>
      cases x with
      | nil => exact le_refl 0
      | cons x0 xt =>
        cases xt with
        | nil => exact le_refl 0
        | cons x1 xs => exact le_refl 0
    | cons y1 ys =>
      cases x with
      | nil => exact le_refl 0
      | cons x0 xt =>
        cases xt with
        | nil => exact le_refl 0
        | cons x1 xs =>
          have hstep : (0:ℝ) ≤ (x1 - x0) * (y0 + y1) / 2 := by
            have h01 : x0 ≤ x1 := (List.chain'_cons.mp hx).1
            have hy0 : 0 ≤ y0 := hy y0 (by simp)
            have hy1 : 0 ≤ y1 := hy y1 (by simp)
            have : (0:ℝ) ≤ (x1 - x0) * (y0 + y1) := by nlinarith
            linarith
          have htail : 0 ≤ trapz (y1 :: ys) (x1 :: xs) := by
            refine ih (x1 :: xs) ?_ (List.chain'_cons.mp hx).2
            intro v hv
            exact hy v (List.mem_cons_of_mem _ hv)
          show 0 ≤ (x1 - x0) * (y0 + y1) / 2 + trapz (y1 :: ys) (x1 :: xs)
          linarith

/-- Every element of a `zipWith` comes from a pair of elements. -/
lemma exists_of_mem_zipWith {α β γ : Type} {f : α → β → γ} :
    ∀ {l₁ : List α} {l₂ : List β} {x : γ}, x ∈ List.zipWith f l₁ l₂ →
      ∃ a ∈ l₁, ∃ b ∈ l₂, x = f a b := by
  intro l₁
  induction l₁ with
  | nil => intro l₂ x hx; simp [List.zipWith] at hx
  | cons a t ih =>
    intro l₂ x hx
    cases l₂ with
    | nil => simp [List.zipWith] at hx
    | cons b t2 =>
      rcases List.mem_cons.mp hx with h | h
      · exact ⟨a, by simp, b, by simp, h⟩
      · rcases ih h with ⟨a', ha', b', hb', hx'⟩
        exact ⟨a', List.mem_cons_of_mem _ ha', b', List.mem_cons_of_mem _ hb', hx'⟩

/-- Every entry of a clamped list is positive when the clamp value is. -/
lemma maskClamp_pos {mv : ℝ} (hmv : 0 < mv) (l : List ℝ) :
    ∀ v ∈ maskClamp mv l, 0 < v := by
  intro v hv
  rcases List.mem_map.mp hv with ⟨g, _, hg⟩
  subst hg
  split
  · exact hmv
  · next hgt => exact lt_trans hmv (lt_of_not_le hgt)

/-- Clamping changes nothing when every entry already exceeds the clamp. -/
lemma maskClamp_eq_self {mv : ℝ} {l : List ℝ} (h : ∀ v ∈ l, mv < v) :
    maskClamp mv l = l := by
  have : l.map (fun g => if g ≤ mv then mv else g) = l.map id := by
    refine List.map_congr_left ?_
    intro a ha
    simp [not_le.mpr (h a ha)]
  simpa [maskClamp] using this

/-- Element `i` of a map over `List.range`. -/
lemma range_map_getD (n : ℕ) (f : ℕ → ℝ) (i : ℕ) (hi : i < n) :
    ((List.range n).map f).getD i 0 = f i := by
  have hlen : i < ((List.range n).map f).length := by simpa using hi
  rw [List.getD_eq_getElem _ _ hlen, List.getElem_map, List.getElem_range]

/-- The example update call of the witnesses: a single primitive
(`c = 1, ζ = 1`) on the one-point grid `[0]`; `trapz` over one sample is
`0`, so the updated coefficient vector is `[0]`. -/
lemma update_coefficients_example :
    update_coefficients [1] [1] [1] [0] (1e-6) = some [0] := by
  rw [update_coefficients, if_pos]
  · simp [show List.range 1 = [0] from rfl, trapz_single]
  · refine ⟨?_, rfl, rfl⟩
    intro c hc
    rw [List.mem_singleton] at hc
    subst hc
    norm_num

/-- A `getD` at a valid index is a member of the list. -/
lemma getD_mem {α : Type} (l : List α) (i : ℕ) (d : α) (h : i < l.length) :
    l.getD i d ∈ l := by
  rw [List.getD_eq_getElem l d h]
  exact List.getElem_mem h

/-- The normalization constant is non-negative for non-negative exponents. -/
lemma get_normalization_constant_nonneg {z : ℝ} (hz : 0 ≤ z) :
    0 ≤ get_normalization_constant z := by
  rw [get_normalization_constant]
  have h1 : (0:ℝ) ≤ z ^ ((3 : ℝ) / 2) := Real.rpow_nonneg hz _
  have h2 : 0 ≤ Real.sqrt Real.pi := Real.sqrt_nonneg _
  positivity

/-! Claim theorems. -/

/-- Claim C1: on success, the MBIS coefficient update returns, for each
primitive `i`, `c_i * N(ζ_i) * trapz((true/clamped model) * exp(-ζ_i r²) * r², grid)`,
the model density being clamped below at the mask value before dividing. -/
theorem update_coefficients_closed_form
    (initial_coeffs constant_exponents electron_density grid : List ℝ)
    (masked_value : ℝ) (out : List ℝ)
    (h : update_coefficients initial_coeffs constant_exponents electron_density grid
      masked_value = some out)
    (i : ℕ) (hi : i < initial_coeffs.length) :
    out.getD i 0 =
      initial_coeffs.getD i 0 *
        get_normalization_constant (constant_exponents.getD i 0) *
        trapz
          (List.zipWith
            (fun rt r => rt * Real.exp (-(constant_exponents.getD i 0) * r ^ 2) * r ^ 2)
            (List.zipWith (fun d m => d / m) electron_density
              (maskClamp masked_value
                (normalized_gaussian_model initial_coeffs constant_exponents grid)))
            grid)
          grid := by
  rw [update_coefficients] at h
  split_ifs at h with hcond
  rw [Option.some.injEq] at h
  subst h
  rw [range_map_getD _ _ _ hi]

/-- Witness for C1 at the concrete input of `update_coefficients_example`. -/
theorem update_coefficients_closed_form_witness :
    ([(0:ℝ)]).getD 0 0 =
      ([(1:ℝ)]).getD 0 0 *
        get_normalization_constant (([(1:ℝ)]).getD 0 0) *
        trapz
          (List.zipWith
            (fun rt r => rt * Real.exp (-(([(1:ℝ)]).getD 0 0) * r ^ 2) * r ^ 2)
            (List.zipWith (fun d m => d / m) [(1:ℝ)]
              (maskClamp (1e-6)
                (normalized_gaussian_model [1] [1] [0])))
            [0])
          [0] :=
  update_coefficients_closed_form [1] [1] [1] [0] (1e-6) [0]
    update_coefficients_example 0 (by norm_num)

/-- Claim C2 (amended): on a monotonically non-decreasing grid, with a
non-negative true density, non-negative exponents and a positive mask
value, every coefficient returned by the multiplicative update is
non-negative. -/
theorem update_coefficients_nonneg
    (initial_coeffs constant_exponents electron_density grid : List ℝ)
    (masked_value : ℝ) (out : List ℝ)
    (h : update_coefficients initial_coeffs constant_exponents electron_density grid
      masked_value = some out)
    (hd : ∀ v ∈ electron_density, 0 ≤ v)
    (he : ∀ z ∈ constant_exponents, 0 ≤ z)
    (hg : List.Chain' (fun a b => a ≤ b) grid)
    (hmv : 0 < masked_value) :
    ∀ v ∈ out, 0 ≤ v := by
  rw [update_coefficients] at h
  split_ifs at h with hcond
  rw [Option.some.injEq] at h
  subst h
  intro v hv
  rcases List.mem_map.mp hv with ⟨i, hi, hfv⟩
  subst hfv
  have hi' : i < initial_coeffs.length := List.mem_range.mp hi
  have hc : 0 ≤ initial_coeffs.getD i 0 :=
    le_of_lt (hcond.1 _ (getD_mem initial_coeffs i 0 hi'))
  have hie : i < constant_exponents.length := hcond.2.1 ▸ hi'
  have hN : 0 ≤ get_normalization_constant (constant_exponents.getD i 0) :=
    get_normalization_constant_nonneg (he _ (getD_mem constant_exponents i 0 hie))
  have htr : 0 ≤ trapz
      (List.zipWith
        (fun rt r => rt * Real.exp (-(constant_exponents.getD i 0) * r ^ 2) * r ^ 2)
        (List.zipWith (fun d m => d / m) electron_density
          (maskClamp masked_value
            (normalized_gaussian_model initial_coeffs constant_exponents grid)))
        grid)
      grid := by
    refine trapz_nonneg _ _ ?_ hg
    intro y hy
    rcases exists_of_mem_zipWith hy with ⟨rt, hrt, r, _, hyeq⟩
    subst hyeq
    have hrt0 : 0 ≤ rt := by
      rcases exists_of_mem_zipWith hrt with ⟨d, hdm, m, hm, hrteq⟩
      subst hrteq
      exact div_nonneg (hd d hdm) (le_of_lt (maskClamp_pos hmv _ m hm))
    have hexp : 0 ≤ Real.exp (-(constant_exponents.getD i 0) * r ^ 2) :=
      le_of_lt (Real.exp_pos _)
    positivity
  positivity

/-- Witness for C2 at the concrete input of `update_coefficients_example`
(the one-point grid `[0]` is trivially monotone). -/
theorem update_coefficients_nonneg_witness :
    update_coefficients [1] [1] [1] [0] (1e-6) = some [0] ∧
      (0:ℝ) ≤ ([(0:ℝ)]).getD 0 0 :=
  ⟨update_coefficients_example,
    update_coefficients_nonneg [1] [1] [1] [0] (1e-6) [0] update_coefficients_example
      (by intro v hv; rw [List.mem_singleton] at hv; subst hv; norm_num)
      (by intro z hz; rw [List.mem_singleton] at hz; subst hz; norm_num)
      (List.chain'_singleton 0) (by norm_num)
      (([(0:ℝ)]).getD 0 0) (by simp)⟩

/-- Counterexample to C2 as stated: on the non-monotone (descending)
grid `[1, 0]`, with positive coefficient, exponent and density, the
update succeeds yet returns a strictly negative coefficient —
monotonicity of the grid is a necessary extra hypothesis. -/
theorem update_coefficients_nonneg_counterexample :
    (update_coefficients [1] [1] [1, 1] [1, 0] (1e-6)).isSome ∧
      ((update_coefficients [1] [1] [1, 1] [1, 0] (1e-6)).getD []).getD 0 0 < 0 := by
  have hpos : (∀ c ∈ ([1] : List ℝ), 0 < c) ∧
      ([1] : List ℝ).length = ([1] : List ℝ).length ∧
      ([1, 1] : List ℝ).length = ([1, 0] : List ℝ).length := by
    refine ⟨?_, rfl, rfl⟩
    intro c hc
    rw [List.mem_singleton] at hc
    subst hc
    norm_num
  have hNpos : 0 < get_normalization_constant 1 := by
    rw [get_normalization_constant]
    have h1 : (0:ℝ) < (1:ℝ) ^ ((3 : ℝ) / 2) := Real.rpow_pos_of_pos one_pos _
    have h2 : 0 < Real.sqrt Real.pi := Real.sqrt_pos.mpr Real.pi_pos
    positivity
  constructor
  · rw [update_coefficients, if_pos hpos]
    rfl
  · rw [update_coefficients, if_pos hpos, Option.getD_some,
      range_map_getD _ _ _ (by norm_num : (0:ℕ) < ([1] : List ℝ).length)]
    simp only [normalized_gaussian_model, maskClamp, List.map_cons, List.map_nil,
      List.zipWith_cons_cons, List.zipWith_nil_right, List.zipWith_nil_left,
      List.sum_cons, List.sum_nil, List.getD_cons_zero, add_zero]
    rw [trapz_pair]
    set m0 : ℝ := (if Real.exp (-1 * (1:ℝ) ^ 2) * (get_normalization_constant 1 * 1) ≤ 1e-6
        then (1e-6 : ℝ)
        else Real.exp (-1 * (1:ℝ) ^ 2) * (get_normalization_constant 1 * 1)) with hm0def
    set m1 : ℝ := (if Real.exp (-1 * (0:ℝ) ^ 2) * (get_normalization_constant 1 * 1) ≤ 1e-6
        then (1e-6 : ℝ)
        else Real.exp (-1 * (0:ℝ) ^ 2) * (get_normalization_constant 1 * 1)) with hm1def
    have hm0 : 0 < m0 := by
      rw [hm0def]
      split
      · norm_num
      · have := Real.exp_pos (-1 * (1:ℝ) ^ 2)
        positivity
    have hkey : 0 < get_normalization_constant 1 * (1 / m0 * Real.exp (-1 * (1:ℝ) ^ 2)) :=
      mul_pos hNpos (mul_pos (one_div_pos.mpr hm0) (Real.exp_pos _))
    nlinarith [hkey]

/-- Claim C8 (amended): the update fails exactly when some initial
coefficient is non-positive, the coefficient and exponent vectors differ
in length, or the density and grid vectors differ in length; it
succeeds otherwise.  The checks sit in front of the computation. -/
theorem update_coefficients_validation
    (initial_coeffs constant_exponents electron_density grid : List ℝ)
    (masked_value : ℝ) :
    (update_coefficients initial_coeffs constant_exponents electron_density grid
        masked_value).isSome ↔
      ((∀ c ∈ initial_coeffs, 0 < c) ∧
        initial_coeffs.length = constant_exponents.length ∧
        electron_density.length = grid.length) := by
  rw [update_coefficients]
  split_ifs with hcond
  · simpa using hcond
  · simpa using hcond

/-- Counterexample to C8 as stated: a call with strictly positive
coefficients and equal-length coefficient/exponent vectors still fails,
because the density and grid vectors differ in length (the third
assertion of the source). -/
theorem update_coefficients_validation_counterexample :
    update_coefficients [1] [1] [1, 1] [1] (1e-6) = none ∧
      (0:ℝ) < 1 ∧ ([(1:ℝ)]).length = ([(1:ℝ)]).length := by
  refine ⟨?_, by norm_num, rfl⟩
  rw [update_coefficients, if_neg]
  intro hcond
  have := hcond.2.2
  simp at this

/-- Entry `(j, i)` of the Slater-orbital matrix in terms of `slaterEntry`. -/
lemma slater_orbital_getD (exponent : List ℝ) (number : List ℕ) (points : List ℝ)
    (j i : ℕ) (hj : j < points.length) (hi : i < exponent.length)
    (hlen : exponent.length = number.length) :
    ((slater_orbital exponent number points).getD j []).getD i 0 =
      slaterEntry (exponent.getD i 0) (number.getD i 1) (points.getD j 0) := by
  have hjm : j < (slater_orbital exponent number points).length := by
    simpa [slater_orbital] using hj
  rw [slater_orbital] at hjm ⊢
  rw [List.getD_eq_getElem _ _ hjm, List.getElem_map]
  have hzi : i < ((exponent.zip number).map
      (fun en => slaterEntry en.1 en.2 (points[j]))).length := by
    rw [List.length_map, List.length_zip, ← hlen]
    simpa using hi
  rw [List.getD_eq_getElem _ _ hzi, List.getElem_map, List.getElem_zip]
  rw [List.getD_eq_getElem exponent 0 hi, List.getD_eq_getElem number 1 (by omega),
    List.getD_eq_getElem points 0 hj]

/-- Entry `(j, i)` of the derivative matrix in terms of `derivEntry`. -/
lemma derivative_slater_getD (exponent : List ℝ) (number : List ℕ) (points : List ℝ)
    (j i : ℕ) (hj : j < points.length) (hi : i < exponent.length)
    (hlen : exponent.length = number.length) :
    ((derivative_slater_type_orbital exponent number points).getD j []).getD i 0 =
      derivEntry (exponent.getD i 0) (number.getD i 1) (points.getD j 0) := by
  have hjm : j < (derivative_slater_type_orbital exponent number points).length := by
    simpa [derivative_slater_type_orbital] using hj
  rw [derivative_slater_type_orbital] at hjm ⊢
  rw [List.getD_eq_getElem _ _ hjm, List.getElem_map]
  have hzi : i < ((exponent.zip number).map
      (fun en => derivEntry en.1 en.2 (points[j]))).length := by
    rw [List.length_map, List.length_zip, ← hlen]
    simpa using hi
  rw [List.getD_eq_getElem _ _ hzi, List.getElem_map, List.getElem_zip]
  rw [List.getD_eq_getElem exponent 0 hi, List.getD_eq_getElem number 1 (by omega),
    List.getD_eq_getElem points 0 hj]

/-- Claim C3: entry `(j, i)` of the Slater-orbital matrix equals
`(2ζ_i)^(n_i) * sqrt(2ζ_i / (2 n_i)!) * r_j^(n_i - 1) * exp(-ζ_i r_j)`. -/
theorem slater_orbital_entry_formula (exponent : List ℝ) (number : List ℕ)
    (points : List ℝ) (j i : ℕ) (hj : j < points.length) (hi : i < exponent.length)
    (hlen : exponent.length = number.length) :
    ((slater_orbital exponent number points).getD j []).getD i 0 =
      (2 * exponent.getD i 0) ^ (number.getD i 1) *
        Real.sqrt (2 * exponent.getD i 0 / (Nat.factorial (2 * number.getD i 1) : ℝ)) *
        (points.getD j 0) ^ (number.getD i 1 - 1) *
        Real.exp (-(exponent.getD i 0) * points.getD j 0) := by
  rw [slater_orbital_getD exponent number points j i hj hi hlen]
  rfl

/-- Witness for C3: a single orbital `ζ = 1, n = 1` evaluated at `r = 0`. -/
theorem slater_orbital_entry_formula_witness :
    ((slater_orbital [1] [1] [0]).getD 0 []).getD 0 0 =
      (2 * ([(1:ℝ)]).getD 0 0) ^ (([1] : List ℕ).getD 0 1) *
        Real.sqrt (2 * ([(1:ℝ)]).getD 0 0 /
          (Nat.factorial (2 * ([1] : List ℕ).getD 0 1) : ℝ)) *
        (([(0:ℝ)]).getD 0 0) ^ (([1] : List ℕ).getD 0 1 - 1) *
        Real.exp (-(([(1:ℝ)]).getD 0 0) * ([(0:ℝ)]).getD 0 0) :=
  slater_orbital_entry_formula [1] [1] [0] 0 0 (by norm_num) (by norm_num) rfl

/-- Claim C4: the Slater-orbital derivative is exactly `0` on every row
whose grid point satisfies `|r| < 1e-10` (in particular at `r = 0`), and
equals `[(n-1)/r - ζ]` times the Slater orbital elsewhere. -/
theorem derivative_slater_zero_at_origin (exponent : List ℝ) (number : List ℕ)
    (points : List ℝ) (j i : ℕ) (hj : j < points.length) (hi : i < exponent.length)
    (hlen : exponent.length = number.length) :
    (|points.getD j 0| < 1e-10 →
      ((derivative_slater_type_orbital exponent number points).getD j []).getD i 0 = 0) ∧
    (¬ |points.getD j 0| < 1e-10 →
      ((derivative_slater_type_orbital exponent number points).getD j []).getD i 0 =
        (((number.getD i 1 : ℝ) - 1) / points.getD j 0 - exponent.getD i 0) *
          slaterEntry (exponent.getD i 0) (number.getD i 1) (points.getD j 0)) := by
  rw [derivative_slater_getD exponent number points j i hj hi hlen]
  constructor
  · intro hr
    rw [derivEntry, if_pos hr, zero_mul]
  · intro hr
    rw [derivEntry, if_neg hr]

/-- Witness for C4: at the grid `[0, 1]`, the derivative row at `r = 0`
is exactly `0`. -/
theorem derivative_slater_zero_at_origin_witness :
    ((derivative_slater_type_orbital [1] [1] [0, 1]).getD 0 []).getD 0 0 = 0 :=
  (derivative_slater_zero_at_origin [1] [1] [0, 1] 0 0 (by norm_num) (by norm_num)
    rfl).1 (by norm_num)

/-- Splitting an occupation vector into its core and valence reweightings
and summing the two weighted densities recovers the plain weighted
density: the weights `1 - exp(-(e-h)²)` and `exp(-(e-h)²)` are
complementary. -/
lemma zip_occ_split (row occs ens : List ℝ) (h : ℝ)
    (hlen : occs.length = ens.length) :
    (List.zipWith (fun p occ => p ^ 2 * occ) row
        (List.zipWith (fun occ en => occ * (1 - Real.exp (-(en - h) ^ 2))) occs ens)).sum +
      (List.zipWith (fun p occ => p ^ 2 * occ) row
        (List.zipWith (fun occ en => occ * Real.exp (-(en - h) ^ 2)) occs ens)).sum =
      (List.zipWith (fun p occ => p ^ 2 * occ) row occs).sum := by
  induction row generalizing occs ens with
  | nil => simp
  | cons p pr ih =>
    cases occs with
    | nil => simp
    | cons o os =>
      cases ens with
      | nil => simp at hlen
      | cons en ens2 =>
        simp only [List.zipWith_cons_cons, List.sum_cons]
        have htail := ih os ens2 (by simpa using hlen)
        have hhead : p ^ 2 * (o * (1 - Real.exp (-(en - h) ^ 2))) +
            p ^ 2 * (o * Real.exp (-(en - h) ^ 2)) = p ^ 2 * o := by ring
        linarith

/-- Pointwise addition of two maps over the same list, through `getD`. -/
lemma map_getD_add {α : Type} (l : List α) (f1 f2 f3 : α → ℝ)
    (hf : ∀ x, f1 x + f2 x = f3 x) (j : ℕ) :
    (l.map f1).getD j 0 + (l.map f2).getD j 0 = (l.map f3).getD j 0 := by
  by_cases hj : j < l.length
  · rw [List.getD_eq_getElem _ _ (by simpa using hj),
      List.getD_eq_getElem _ _ (by simpa using hj),
      List.getD_eq_getElem _ _ (by simpa using hj),
      List.getElem_map, List.getElem_map, List.getElem_map]
    exact hf _
  · have hj' : l.length ≤ j := le_of_not_lt hj
    rw [List.getD_eq_default _ _ (by simpa using hj'),
      List.getD_eq_default _ _ (by simpa using hj'),
      List.getD_eq_default _ _ (by simpa using hj')]
    ring

/-- Claim C5: the core and valence atomic densities sum pointwise to the
total atomic density (exactly, in real arithmetic), since the
occupation weights `exp(-(e_i - e_ref)²)` and `1 - exp(-(e_i - e_ref)²)`
are complementary. -/
theorem atomic_density_core_add_valence (a : SlaterAtomsData) (points : List ℝ)
    (j : ℕ) (hlen : a.orbitals_occupation.length = a.orbitals_energy.length) :
    ((atomic_density a points "core").getD []).getD j 0 +
      ((atomic_density a points "valence").getD []).getD j 0 =
      ((atomic_density a points "total").getD []).getD j 0 := by
  have hc : atomic_density a points "core" =
      some ((phi_matrix a points false).map (fun row =>
        (List.zipWith (fun p occ => p ^ 2 * occ) row
          (List.zipWith (fun occ en => occ *
              (1 - Real.exp (-(en - a.orbitals_energy.getD
                (a.orbitals_occupation.length - 1) 0) ^ 2)))
            a.orbitals_occupation a.orbitals_energy)).sum / (4 * Real.pi))) := by
    simp [atomic_density]
  have hv : atomic_density a points "valence" =
      some ((phi_matrix a points false).map (fun row =>
        (List.zipWith (fun p occ => p ^ 2 * occ) row
          (List.zipWith (fun occ en => occ *
              Real.exp (-(en - a.orbitals_energy.getD
                (a.orbitals_occupation.length - 1) 0) ^ 2))
            a.orbitals_occupation a.orbitals_energy)).sum / (4 * Real.pi))) := by
    simp [atomic_density]
  have ht : atomic_density a points "total" =
      some ((phi_matrix a points false).map (fun row =>
        (List.zipWith (fun p occ => p ^ 2 * occ) row
          a.orbitals_occupation).sum / (4 * Real.pi))) := by
    simp [atomic_density]
  rw [hc, hv, ht, Option.getD_some, Option.getD_some, Option.getD_some]
  refine map_getD_add _ _ _ _ ?_ j
  intro row
  rw [div_add_div_same]
  exact congrArg (fun t => t / (4 * Real.pi)) (zip_occ_split row _ _ _ hlen)

/-- Witness for C5 at the one-orbital atom `atomOne` on the grid `[0]`. -/
theorem atomic_density_core_add_valence_witness :
    ((atomic_density atomOne [0] "core").getD []).getD 0 0 +
      ((atomic_density atomOne [0] "valence").getD []).getD 0 0 =
      ((atomic_density atomOne [0] "total").getD []).getD 0 0 :=
  atomic_density_core_add_valence atomOne [0] 0 rfl

/-- Claim C6 (amended): valence mode reweights each occupation by
`exp(-(e_i - e_ref)²)` and core mode by `1 - exp(-(e_i - e_ref)²)`, where
`e_ref` is the energy stored at index `len(occupations) - 1` — the energy
of the last orbital in the S-then-P-then-D ordered orbital list, which
need not be the highest-occupied orbital's energy. -/
theorem atomic_density_weights_reference (a : SlaterAtomsData) (points : List ℝ) :
    atomic_density a points "valence" =
      some ((phi_matrix a points false).map (fun row =>
        (List.zipWith (fun p occ => p ^ 2 * occ) row
          (List.zipWith (fun occ en => occ *
              Real.exp (-(en - a.orbitals_energy.getD
                (a.orbitals_occupation.length - 1) 0) ^ 2))
            a.orbitals_occupation a.orbitals_energy)).sum / (4 * Real.pi))) ∧
    atomic_density a points "core" =
      some ((phi_matrix a points false).map (fun row =>
        (List.zipWith (fun p occ => p ^ 2 * occ) row
          (List.zipWith (fun occ en => occ *
              (1 - Real.exp (-(en - a.orbitals_energy.getD
                (a.orbitals_occupation.length - 1) 0) ^ 2)))
            a.orbitals_occupation a.orbitals_energy)).sum / (4 * Real.pi))) := by
  constructor
  · simp [atomic_density]
  · simp [atomic_density]

/-- Counterexample to C6 as stated: for `atomTwo` (both orbitals occupied,
energies `[0, -1]`, so the highest-occupied orbital is the first one) the
source valence density differs from the density computed with the
claim's HOMO reference (the spec-modelled `atomic_density_spec`). -/
theorem atomic_density_homo_counterexample :
    ((atomic_density atomTwo [0] "valence").getD []).getD 0 0 ≠
      ((atomic_density_spec atomTwo [0] "valence").getD []).getD 0 0 := by
  have hs2 : slaterEntry (2⁻¹ : ℝ) 1 0 ^ 2 = 1 / 2 := by
    rw [slaterEntry]
    rw [show (2 * (2⁻¹:ℝ)) = 1 by norm_num]
    norm_num [Real.sq_sqrt]
  have hv : ((atomic_density atomTwo [0] "valence").getD []).getD 0 0 =
      Real.exp (-1) / (4 * Real.pi) := by
    simp [atomic_density, phi_matrix, atomTwo]
    rw [hs2]
    ring
  have hspec : ((atomic_density_spec atomTwo [0] "valence").getD []).getD 0 0 =
      1 / (4 * Real.pi) := by
    simp [atomic_density_spec, homo_energy_spec, phi_matrix, atomTwo]
    rw [hs2]
    ring
  rw [hv, hspec]
  intro h
  have hπ : (4 * Real.pi) ≠ 0 := by positivity
  rw [div_eq_div_iff hπ hπ] at h
  have hexp : Real.exp (-1) = 1 := by
    have h4 : (0:ℝ) < 4 * Real.pi := by positivity
    nlinarith
  have hlt : Real.exp (-1) < 1 := Real.exp_lt_one_iff.mpr (by norm_num)
  linarith

/-- Claim C7 (amended): the KL objective applies no clamp to the model
density (the masking line is commented out in the source); it agrees
with the claimed clamped evaluation exactly when every model value
already exceeds the mask threshold. -/
theorem KL_objective_no_clamp (coefficients exponents true_density grid : List ℝ)
    (masked_value : ℝ)
    (h : ∀ v ∈ normalized_gaussian_model coefficients exponents grid, masked_value < v) :
    KL_objective_function coefficients exponents true_density grid =
      KL_objective_claimed coefficients exponents true_density grid masked_value := by
  rw [KL_objective_function, KL_objective_claimed, maskClamp_eq_self h]

/-- Witness for C7: with `c = ζ = 1` on the grid `[0]` the single model
value `4/√π` exceeds the default threshold `1e-6`, and the two
evaluations coincide. -/
theorem KL_objective_no_clamp_witness :
    KL_objective_function [1] [1] [1] [0] =
      KL_objective_claimed [1] [1] [1] [0] (1e-6) := by
  refine KL_objective_no_clamp [1] [1] [1] [0] (1e-6) ?_
  intro v hv
  simp [normalized_gaussian_model] at hv
  subst hv
  norm_num [get_normalization_constant, Real.one_rpow]
  have hsq : Real.sqrt Real.pi < 2 := by
    have h4 : Real.sqrt ((2:ℝ) ^ 2) = 2 := Real.sqrt_sq (by norm_num)
    calc Real.sqrt Real.pi < Real.sqrt ((2:ℝ) ^ 2) :=
          Real.sqrt_lt_sqrt (le_of_lt Real.pi_pos) (by nlinarith [Real.pi_lt_d2])
      _ = 2 := h4
  have hpos : 0 < Real.sqrt Real.pi := Real.sqrt_pos.mpr Real.pi_pos
  have h2 : (2:ℝ) < 4 / Real.sqrt Real.pi := by
    rw [lt_div_iff₀ hpos]
    nlinarith
  linarith

/-- Counterexample to C7 as stated: with coefficient `1e-7` the model
density lies strictly below the `1e-6` threshold on the whole grid
`[0, 1]`, and the source objective (no clamp) differs from the claimed
clamped objective. -/
theorem KL_objective_clamp_counterexample :
    KL_objective_function [1 / 10 ^ 7] [1] [1, 1] [0, 1] ≠
      KL_objective_claimed [1 / 10 ^ 7] [1] [1, 1] [0, 1] (1e-6) := by
  simp only [KL_objective_function, KL_objective_claimed, normalized_gaussian_model,
    maskClamp, List.map_cons, List.map_nil, List.zipWith_cons_cons,
    List.zipWith_nil_right, List.zipWith_nil_left, List.sum_cons, List.sum_nil,
    add_zero]
  rw [trapz_pair, trapz_pair]
  set N : ℝ := get_normalization_constant 1 with hN
  have hNpos : 0 < N := by
    rw [hN, get_normalization_constant]
    have h1 : (0:ℝ) < (1:ℝ) ^ ((3 : ℝ) / 2) := Real.rpow_pos_of_pos one_pos _
    have h2 : 0 < Real.sqrt Real.pi := Real.sqrt_pos.mpr Real.pi_pos
    positivity
  have hsq : (2/5 : ℝ) < Real.sqrt Real.pi := by
    have h25 : Real.sqrt ((2/5:ℝ) ^ 2) = 2/5 := Real.sqrt_sq (by norm_num)
    calc (2/5:ℝ) = Real.sqrt ((2/5:ℝ) ^ 2) := h25.symm
      _ < Real.sqrt Real.pi :=
          Real.sqrt_lt_sqrt (by positivity) (by nlinarith [Real.pi_gt_three])
  have hNlt : N < 10 := by
    rw [hN, get_normalization_constant, Real.one_rpow, mul_one]
    have hd := div_lt_div_of_pos_left (by norm_num : (0:ℝ) < 4)
      (by norm_num : (0:ℝ) < 2/5) hsq
    calc (4:ℝ) / Real.sqrt Real.pi < 4 / (2/5) := hd
      _ = 10 := by norm_num
  have hNc : N * (1 / 10 ^ 7) < (1e-6 : ℝ) := by
    have h10 : (1e-6 : ℝ) = 10 * (1 / 10 ^ 7) := by norm_num
    rw [h10]
    have hc : (0:ℝ) < 1 / 10 ^ 7 := by norm_num
    exact mul_lt_mul_of_pos_right hNlt hc
  have hm0lt : Real.exp (-1 * (0:ℝ) ^ 2) * (N * (1 / 10 ^ 7)) < (1e-6:ℝ) := by
    rw [show (-1 * (0:ℝ) ^ 2) = 0 by norm_num, Real.exp_zero, one_mul]
    exact hNc
  have hm0pos : 0 < Real.exp (-1 * (0:ℝ) ^ 2) * (N * (1 / 10 ^ 7)) := by positivity
  have hm1lt : Real.exp (-1 * (1:ℝ) ^ 2) * (N * (1 / 10 ^ 7)) < (1e-6:ℝ) := by
    have hexp : Real.exp (-1 * (1:ℝ) ^ 2) < 1 := by
      rw [show (-1 * (1:ℝ) ^ 2) = -1 by norm_num]
      exact Real.exp_lt_one_iff.mpr (by norm_num)
    have hstep : Real.exp (-1 * (1:ℝ) ^ 2) * (N * (1 / 10 ^ 7)) < 1 * (N * (1 / 10 ^ 7)) :=
      mul_lt_mul_of_pos_right hexp (by positivity)
    rw [one_mul] at hstep
    linarith
  have hm1pos : 0 < Real.exp (-1 * (1:ℝ) ^ 2) * (N * (1 / 10 ^ 7)) := by positivity
  rw [if_pos (le_of_lt hm0lt), if_pos (le_of_lt hm1lt)]
  intro heq
  have hl0 : Real.log (1 / (1e-6:ℝ)) <
      Real.log (1 / (Real.exp (-1 * (0:ℝ) ^ 2) * (N * (1 / 10 ^ 7)))) :=
    Real.log_lt_log (by positivity) (one_div_lt_one_div_of_lt hm0pos hm0lt)
  have hl1 : Real.log (1 / (1e-6:ℝ)) <
      Real.log (1 / (Real.exp (-1 * (1:ℝ) ^ 2) * (N * (1 / 10 ^ 7)))) :=
    Real.log_lt_log (by positivity) (one_div_lt_one_div_of_lt hm1pos hm1lt)
  linarith

/-- Loop invariant of `MBIS_loop`: each completed iteration increments
the counter and each of the three used diagnostic slots by exactly one
and never touches the exponent vector. -/
lemma MBIS_loop_invariant (electron_density grid : List ℝ) (masked_value : ℝ) :
    ∀ (k : ℕ) (st st2 : MBISState),
      MBIS_loop electron_density grid masked_value k st = some st2 →
      st2.counter = st.counter + k ∧ st2.err0.length = st.err0.length + k ∧
        st2.err1.length = st.err1.length + k ∧ st2.err2.length = st.err2.length + k ∧
        st2.exponents = st.exponents := by
  intro k
  induction k with
  | zero =>
    intro st st2 h
    rw [MBIS_loop, Option.some.injEq] at h
    subst h
    simp
  | succ n ih =>
    intro st st2 h
    rw [MBIS_loop] at h
    cases hit : MBIS_iter electron_density grid masked_value st with
    | none => rw [hit] at h; exact absurd h (by simp)
    | some stm =>
      rw [hit] at h
      have hmid := ih stm st2 h
      cases hup : update_coefficients st.old_coefficients st.exponents electron_density
          grid masked_value with
      | none => rw [MBIS_iter, hup] at hit; exact absurd hit (by simp)
      | some nc =>
        rw [MBIS_iter, hup, Option.some.injEq] at hit
        subst hit
        obtain ⟨h1, h2, h3, h4, h5⟩ := hmid
        dsimp only at h1 h2 h3 h4 h5
        simp only [List.length_append, List.length_cons, List.length_nil] at h2 h3 h4
        exact ⟨by omega, by omega, by omega, by omega, h5⟩

/-- Claim C10 (amended): a completed run with iteration budget `k` executes the
coefficient update exactly `k` times (the per-iteration counter ends at
`k`), each of the three recorded diagnostic sequences has length exactly
`k` (no convergence test, no tolerance-based early exit), and the
exponent vector is never modified by any iteration. -/
theorem fixed_iteration_MBIS_counts (coefficients exponents electron_density grid : List ℝ)
    (num_of_iterations : ℕ) (masked_value : ℝ) (st : MBISState)
    (h : fixed_iteration_MBIS_method coefficients exponents electron_density grid
      num_of_iterations masked_value = some st) :
    st.counter = num_of_iterations ∧ st.err0.length = num_of_iterations ∧
      st.err1.length = num_of_iterations ∧ st.err2.length = num_of_iterations ∧
      st.exponents = exponents := by
  have hinv := MBIS_loop_invariant electron_density grid masked_value num_of_iterations
    _ st h
  simpa using hinv

/-- Witness for C10 at iteration budget `0`. -/
theorem fixed_iteration_MBIS_counts_witness :
    (⟨[1], [1], [1], 0, [], [], [], [], [], []⟩ : MBISState).counter = 0 ∧
      (⟨[1], [1], [1], 0, [], [], [], [], [], []⟩ : MBISState).err0.length = 0 ∧
      (⟨[1], [1], [1], 0, [], [], [], [], [], []⟩ : MBISState).err1.length = 0 ∧
      (⟨[1], [1], [1], 0, [], [], [], [], [], []⟩ : MBISState).err2.length = 0 ∧
      (⟨[1], [1], [1], 0, [], [], [], [], [], []⟩ : MBISState).exponents = [1] :=
  fixed_iteration_MBIS_counts [1] [1] [1] [0] 0 (1e-6)
    ⟨[1], [1], [1], 0, [], [], [], [], [], []⟩ rfl

/-- Claim C9 (supporting theorem for the code bug): after one completed
iteration the diagnostic history holds, in order, the integration error
(slot 0), the integrated model mass (slot 1) and the objective value
(slot 2) — not the (mass, error, objective) order the claim states; the
final coefficient vector lives only in the loop state, which the
source's `return` statement does not reference. -/
theorem fixed_iteration_MBIS_history_slots
    (coefficients exponents electron_density grid : List ℝ) (masked_value : ℝ)
    (st : MBISState)
    (h : fixed_iteration_MBIS_method coefficients exponents electron_density grid 1
      masked_value = some st) :
    st.err0 = [integrate_error st.new_coefficients exponents electron_density grid] ∧
      st.err1 = [integrate_normalized_model st.new_coefficients exponents
        electron_density grid] ∧
      st.err2 = [KL_objective_function st.new_coefficients exponents
        electron_density grid] := by
  rw [fixed_iteration_MBIS_method] at h
  cases hup : update_coefficients coefficients exponents electron_density grid
      masked_value with
  | none => simp [MBIS_loop, MBIS_iter, hup] at h
  | some nc =>
    simp only [MBIS_loop, MBIS_iter, hup] at h
    rw [Option.some.injEq] at h
    subst h
    exact ⟨rfl, rfl, rfl⟩

/-- A fully evaluated one-iteration run on the one-point grid `[0]`. -/
lemma fixed_iteration_example :
    fixed_iteration_MBIS_method [1] [1] [1] [0] 1 (1e-6) = some mbisStateEx := by
  rw [fixed_iteration_MBIS_method]
  simp only [MBIS_loop, MBIS_iter, update_coefficients_example]
  simp [mbisStateEx, integrate_error, integrate_normalized_model, KL_objective_function,
    trapz_single]

/-- Witness for C9's theorem at the concrete one-iteration run. -/
theorem fixed_iteration_MBIS_history_slots_witness :
    mbisStateEx.err0 = [integrate_error mbisStateEx.new_coefficients [1] [1] [0]] ∧
      mbisStateEx.err1 = [integrate_normalized_model mbisStateEx.new_coefficients
        [1] [1] [0]] ∧
      mbisStateEx.err2 = [KL_objective_function mbisStateEx.new_coefficients
        [1] [1] [0]] :=
  fixed_iteration_MBIS_history_slots [1] [1] [1] [0] (1e-6) mbisStateEx
    fixed_iteration_example

/-- With an all-zero true density the update succeeds but returns the
zero coefficient vector. -/
lemma update_coefficients_zero_density :
    update_coefficients [1] [1] [0, 0] [0, 1] (1e-6) = some [0] := by
  rw [update_coefficients, if_pos]
  · simp [show List.range 1 = [0] from rfl, normalized_gaussian_model, maskClamp,
      trapz_pair]
  · refine ⟨?_, rfl, rfl⟩
    intro c hc
    rw [List.mem_singleton] at hc
    subst hc
    norm_num

/-- A zero coefficient fails the positivity assertion of the update. -/
lemma update_coefficients_zero_coeff :
    update_coefficients [0] [1] [0, 0] [0, 1] (1e-6) = none := by
  rw [update_coefficients, if_neg]
  intro hcond
  have h0 := hcond.1 0 (by simp)
  norm_num at h0

/-- Counterexample to C10 as stated: with a zero true density and
iteration budget `3`, the coefficients reach `0` after one update and
the third iteration's `update_coefficients` fails its positivity
assertion, aborting the loop (`none`) — the update is not executed
exactly `3` times and no 3-entry history is produced. -/
theorem fixed_iteration_MBIS_abort :
    fixed_iteration_MBIS_method [1] [1] [0, 0] [0, 1] 3 (1e-6) = none := by
  rw [fixed_iteration_MBIS_method]
  simp only [MBIS_loop, MBIS_iter, update_coefficients_zero_density,
    update_coefficients_zero_coeff]

end

end BFit
